import Mathlib

/-!
Shallow embedding of the edge-runtime transport of the repository: the
bounded deferred-task buffer `IsolatedPromiseBuffer` with its `add` and
`drain` operations, and the request/response mapping of the transport
factory `makeEdgeTransport` (its inner `makeRequest`).  Promise timing is
modelled denotationally: a settled future is a pair of an absolute settle
time and an outcome (fulfilled or rejected), and `drain`'s returned promise
is the race between the all-settled continuation and the timeout timer.
-/

namespace SentryEdge

/-- An error value of the SDK (the `SentryError` class); carries a message. -/
structure SentryError where
  message : String
deriving DecidableEq, Repr

/-- The rejection reason used by `add` when the buffer is at capacity. -/
def bufferFullError : SentryError :=
  SentryError.mk "Not adding Promise because buffer limit was reached."

/-- Outcome of a settled promise: fulfilled, or rejected with a reason. -/
inductive PromiseOutcome where
  | fulfilled : PromiseOutcome
  | rejected : SentryError → PromiseOutcome
deriving DecidableEq, Repr

/-- Denotation of a settled future: the absolute time at which it settles
and whether it fulfils or rejects at that time. -/
structure FutureBehavior where
  settleTime : Int
  outcome : PromiseOutcome
deriving DecidableEq, Repr

/-- A task producer: a deferred computation that, once invoked, yields a
future settling `duration` after the invocation with the given outcome.
It performs no work until it is invoked. -/
structure Producer where
  duration : Int
  outcome : PromiseOutcome
deriving DecidableEq, Repr

/-- Invoking a producer at time `startTime` starts its work; its future
settles at `startTime + duration` with the producer's own outcome. -/
def Producer.invoke (p : Producer) (startTime : Int) : FutureBehavior :=
  FutureBehavior.mk (startTime + p.duration) p.outcome

/-- Whether a settled future rejected. -/
def FutureBehavior.isRejected (f : FutureBehavior) : Bool :=
  match f.outcome with
  | PromiseOutcome.fulfilled => false
  | PromiseOutcome.rejected _ => true

/-- Attaching a no-op rejection handler, as in `taskProducer().then(null, ...)`
inside `drain`: the resulting future settles at the same time and always
fulfils (a caught rejection becomes a fulfilment of the handler's result). -/
def catchFailure (f : FutureBehavior) : FutureBehavior :=
  FutureBehavior.mk f.settleTime PromiseOutcome.fulfilled

/-- The settle time of `Promise.all` when every input fulfils: the latest
input settle time (an empty list resolves immediately, modelled as time 0). -/
def maxSettleTime (fs : List FutureBehavior) : Int :=
  (fs.map FutureBehavior.settleTime).foldl max 0

/-- The earliest-settling rejected future of a list, if any: the input whose
rejection `Promise.all` adopts. -/
def firstRejection (fs : List FutureBehavior) : Option FutureBehavior :=
  (fs.filter FutureBehavior.isRejected).foldl
    (fun acc f =>
      match acc with
      | none => some f
      | some g => if f.settleTime < g.settleTime then some f else some g)
    none

/-- Denotation of `Promise.all`: rejects with the earliest rejection if any
input rejects, otherwise fulfils once every input has settled. -/
def promiseAll (fs : List FutureBehavior) : FutureBehavior :=
  match firstRejection fs with
  | some f => FutureBehavior.mk f.settleTime f.outcome
  | none => FutureBehavior.mk (maxSettleTime fs) PromiseOutcome.fulfilled

/-- A `.then` continuation that fires only on fulfilment: yields the time at
which the continuation runs, or `none` if the promise rejected (the
continuation never runs and nothing downstream of it happens). -/
def thenResolveTrue (f : FutureBehavior) : Option Int :=
  match f.outcome with
  | PromiseOutcome.fulfilled => some f.settleTime
  | PromiseOutcome.rejected _ => none

/-- The timeout timer of `drain`: `setTimeout` is armed when `drain` runs at
time `t0` and fires `timeout` milliseconds later, at absolute time
`t0 + timeout`; its callback resolves `false` only under the guard
`timeout && timeout > 0`, so a missing, zero or negative timeout never
produces a time-based resolution. -/
def timerResolveFalse (timeout : Option Int) (t0 : Int) : Option Int :=
  match timeout with
  | some t => if 0 < t then some (t0 + t) else none
  | none => none

/-- Resolution of the promise returned by `drain`, as the race between the
all-settled continuation (resolving `true`, clearing the timer) and the
timeout timer (resolving `false`).  The first call to `resolve` wins; a time
value paired with the boolean records when the promise settles, and `none`
means the promise never resolves. -/
def drainPromiseOutcome (timeout : Option Int) (t0 : Int) (behaviors : List FutureBehavior) :
    Option (Int × Bool) :=
  match thenResolveTrue (promiseAll (behaviors.map catchFailure)), timerResolveFalse timeout t0 with
  | some ta, some tf => if tf < ta then some (tf, false) else some (ta, true)
  | some ta, none => some (ta, true)
  | none, some tf => some (tf, false)
  | none, none => none

/-- Default transport buffer size of the source. -/
def DEFAULT_TRANSPORT_BUFFER_SIZE : Nat := 30

/-- State of an `IsolatedPromiseBuffer`.  The public array field of the
source is spelled `dollar` here because its source name is not a legal Lean
identifier; the source initialises it to the empty array and keeps it only
to satisfy the promise-buffer interface. -/
structure IsolatedPromiseBuffer where
  dollar : List FutureBehavior
  _taskProducers : List Producer
  _bufferSize : Nat
deriving DecidableEq, Repr

/-- The constructor with an explicit buffer size. -/
def IsolatedPromiseBuffer.new (bufferSize : Nat) : IsolatedPromiseBuffer :=
  IsolatedPromiseBuffer.mk [] [] bufferSize

/-- The constructor with the size argument omitted: the default applies. -/
def IsolatedPromiseBuffer.newDefault : IsolatedPromiseBuffer :=
  IsolatedPromiseBuffer.new DEFAULT_TRANSPORT_BUFFER_SIZE

/-- `add`: reject with the buffer-full error when the pending producer list
has reached the buffer size, leaving the state untouched; otherwise append
the producer (without invoking it) and resolve immediately. -/
def IsolatedPromiseBuffer.add (b : IsolatedPromiseBuffer) (taskProducer : Producer) :
    IsolatedPromiseBuffer × PromiseOutcome :=
  if b._taskProducers.length ≥ b._bufferSize then
    (b, PromiseOutcome.rejected bufferFullError)
  else
    ({ b with _taskProducers := b._taskProducers ++ [taskProducer] }, PromiseOutcome.fulfilled)

/-- `drain`: detach the current pending list, reset it to empty, invoke every
detached producer at the drain time `t0` (in list order, all started at
`t0`), and return the new state, the invoked futures, and the resolution of
the returned promise. -/
def IsolatedPromiseBuffer.drain (b : IsolatedPromiseBuffer) (timeout : Option Int)
    (t0 : Int) : IsolatedPromiseBuffer × List FutureBehavior × Option (Int × Bool) :=
  let oldTaskProducers := b._taskProducers
  let b' := { b with _taskProducers := ([] : List Producer) }
  let behaviors := oldTaskProducers.map (fun p => p.invoke t0)
  (b', behaviors, drainPromiseOutcome timeout t0 behaviors)

/-- Sequentially add a list of producers, collecting each admission result. -/
def addAll (b : IsolatedPromiseBuffer) : List Producer →
    IsolatedPromiseBuffer × List PromiseOutcome
  | [] => (b, [])
  | p :: rest =>
    let step := b.add p
    let restResult := addAll step.1 rest
    (restResult.1, step.2 :: restResult.2)

/-- A headers mapping: an ordered association of header names to values. -/
abbrev HeadersMap : Type := List (String × String)

/-- A transport-neutral outbound request: its payload body. -/
structure TransportRequest where
  body : String
deriving DecidableEq, Repr

/-- The native request options overlay (`RequestInit`), with every field
optional: an absent field is not spread over the defaults. -/
structure FetchOptions where
  body : Option String
  method : Option String
  referrerPolicy : Option String
  headers : Option HeadersMap
deriving DecidableEq, Repr

/-- The overlay with no field present: spreading it changes nothing, like
spreading an absent `fetchOptions`. -/
def FetchOptions.empty : FetchOptions :=
  FetchOptions.mk none none none none

/-- Configuration of the edge transport: target URL, optional fixed headers,
options overlay (absent modelled as the empty overlay) and an optional
buffer-size override. -/
structure EdgeTransportOptions where
  url : String
  headers : Option HeadersMap
  fetchOptions : FetchOptions
  bufferSize : Option Nat
deriving DecidableEq, Repr

/-- The assembled request options object handed to `fetch`. -/
structure RequestInit where
  body : String
  method : String
  referrerPolicy : String
  headers : Option HeadersMap
deriving DecidableEq, Repr

/-- Object-spread of the overlay over a base options object: every field
present in the overlay replaces the base field wholesale; absent fields keep
the base value. -/
def spreadFetchOptions (base : RequestInit) (f : FetchOptions) : RequestInit :=
  RequestInit.mk
    (f.body.getD base.body)
    (f.method.getD base.method)
    (f.referrerPolicy.getD base.referrerPolicy)
    (match f.headers with
     | some h => some h
     | none => base.headers)

/-- The request options built by `makeRequest`: the literal with the request
body, method POST, referrerPolicy origin and the configured headers, with
`options.fetchOptions` spread over it last. -/
def makeRequestOptions (options : EdgeTransportOptions) (request : TransportRequest) :
    RequestInit :=
  spreadFetchOptions
    (RequestInit.mk request.body "POST" "origin" options.headers)
    options.fetchOptions

/-- A raw network response: numeric status and response headers. -/
structure HttpResponse where
  status : Nat
  headers : HeadersMap
deriving DecidableEq, Repr

/-- `Headers.get` of the Fetch API: case-insensitive lookup of a response
header, `none` standing for the null returned when the header is absent. -/
def headersGet (hs : HeadersMap) (name : String) : Option String :=
  (List.find? (fun kv => kv.1.toLower == name.toLower) hs).map Prod.snd

/-- The transport-neutral send result: numeric status code and a header
mapping whose values may be null (`none`). -/
structure SendResult where
  statusCode : Nat
  headers : List (String × Option String)
deriving DecidableEq, Repr

/-- The response mapping of `makeRequest`'s `.then` continuation: status code
and exactly the two rate-limiting headers, absent ones mapped to null. -/
def responseToSendResult (response : HttpResponse) : SendResult :=
  SendResult.mk response.status
    [("x-sentry-rate-limits", headersGet response.headers "X-Sentry-Rate-Limits"),
     ("retry-after", headersGet response.headers "Retry-After")]

/-- Per-entry merge of two header maps, as the claim words it: entries of
the overlay override entries of the fixed map on the same name, and
non-overlapping fixed entries are kept.  (This is the claim's reading, to be
compared with what the source builds.) -/
def mergeHeaderEntries (fixed overlay : HeadersMap) : HeadersMap :=
  List.filter (fun kv => (List.lookup kv.1 overlay).isNone) fixed ++ overlay

/-- The request options as the claim describes them: method always POST,
referrerPolicy always origin, body verbatim, headers the per-entry merge of
the fixed headers with the overlay's headers.  (Stated from the claim's
words, to be compared with `makeRequestOptions`.) -/
def claimedRequestOptions (options : EdgeTransportOptions) (request : TransportRequest) :
    RequestInit :=
  RequestInit.mk request.body "POST" "origin"
    (match options.headers, options.fetchOptions.headers with
     | none, none => none
     | some h, none => some h
     | none, some f => some f
     | some h, some f => some (mergeHeaderEntries h f))

/-- Lookup of a header value in an optional headers map (`none` when the map
is absent or the name unbound). -/
def headerLookup (hs : Option HeadersMap) (name : String) : Option String :=
  hs.bind (fun l => List.lookup name l)

/-- One operation of a buffer's lifetime, for whole-lifetime invariants. -/
inductive BufferOp where
  | add : Producer → BufferOp
  | drain : Option Int → Int → BufferOp
deriving Repr

/-- Apply one operation to the buffer state. -/
def applyOp (b : IsolatedPromiseBuffer) : BufferOp → IsolatedPromiseBuffer
  | BufferOp.add p => (b.add p).1
  | BufferOp.drain timeout t0 => (b.drain timeout t0).1

/-- Apply a sequence of operations to the buffer state. -/
def applyOps (b : IsolatedPromiseBuffer) (ops : List BufferOp) : IsolatedPromiseBuffer :=
  ops.foldl applyOp b

/-! Helper lemmas about the promise semantics and the buffer operations. -/

theorem foldl_max_init_le (l : List Int) (a : Int) : a ≤ l.foldl max a := by
  induction l generalizing a with
  | nil => exact le_refl a
  | cons x xs ih => exact le_trans (le_max_left a x) (ih (max a x))

theorem mem_le_foldl_max (l : List Int) (a x : Int) (h : x ∈ l) : x ≤ l.foldl max a := by
  induction l generalizing a with
  | nil => cases h
  | cons y ys ih =>
    cases h with
    | head => exact le_trans (le_max_right a x) (foldl_max_init_le ys (max a x))
    | tail _ hmem => exact ih (max a y) hmem

theorem catchFailure_not_rejected (f : FutureBehavior) :
    FutureBehavior.isRejected (catchFailure f) = false := rfl

theorem filter_rejected_map_catch (fs : List FutureBehavior) :
    (fs.map catchFailure).filter FutureBehavior.isRejected = [] := by
  induction fs with
  | nil => rfl
  | cons f rest ih =>
    rw [List.map_cons, List.filter_cons, catchFailure_not_rejected]
    simpa using ih

theorem firstRejection_map_catch (fs : List FutureBehavior) :
    firstRejection (fs.map catchFailure) = none := by
  unfold firstRejection
  rw [filter_rejected_map_catch]
  rfl

theorem maxSettleTime_map_catch (fs : List FutureBehavior) :
    maxSettleTime (fs.map catchFailure) = maxSettleTime fs := by
  unfold maxSettleTime
  rw [List.map_map]
  rfl

theorem promiseAll_map_catch (fs : List FutureBehavior) :
    promiseAll (fs.map catchFailure) =
      FutureBehavior.mk (maxSettleTime fs) PromiseOutcome.fulfilled := by
  unfold promiseAll
  rw [firstRejection_map_catch, maxSettleTime_map_catch]

theorem drainPromiseOutcome_eq (timeout : Option Int) (t0 : Int)
    (behaviors : List FutureBehavior) :
    drainPromiseOutcome timeout t0 behaviors =
      match timerResolveFalse timeout t0 with
      | some tf =>
          if tf < maxSettleTime behaviors then some (tf, false)
          else some (maxSettleTime behaviors, true)
      | none => some (maxSettleTime behaviors, true) := by
  unfold drainPromiseOutcome
  rw [promiseAll_map_catch]
  cases timerResolveFalse timeout t0 <;> rfl

theorem settleTime_le_maxSettleTime (fs : List FutureBehavior) (f : FutureBehavior)
    (h : f ∈ fs) : f.settleTime ≤ maxSettleTime fs := by
  exact mem_le_foldl_max (fs.map FutureBehavior.settleTime) 0 f.settleTime
    (List.mem_map_of_mem FutureBehavior.settleTime h)

theorem add_of_lt (b : IsolatedPromiseBuffer) (p : Producer)
    (h : b._taskProducers.length < b._bufferSize) :
    b.add p = ({ b with _taskProducers := b._taskProducers ++ [p] },
      PromiseOutcome.fulfilled) := by
  have hc : ¬ b._taskProducers.length ≥ b._bufferSize := by omega
  simp [IsolatedPromiseBuffer.add, hc]

theorem addAll_ok (ps : List Producer) :
    ∀ b : IsolatedPromiseBuffer, b._taskProducers.length + ps.length ≤ b._bufferSize →
      addAll b ps = ({ b with _taskProducers := b._taskProducers ++ ps },
        ps.map (fun _ => PromiseOutcome.fulfilled)) := by
  induction ps with
  | nil => intro b _; simp [addAll]
  | cons p rest ih =>
    intro b hlen
    have hstep := add_of_lt b p (by simp at hlen; omega)
    have hrest := ih { b with _taskProducers := b._taskProducers ++ [p] }
      (by simp at hlen ⊢; omega)
    simp [addAll, hstep, hrest]

theorem dollar_add (b : IsolatedPromiseBuffer) (p : Producer) :
    (b.add p).1.dollar = b.dollar := by
  unfold IsolatedPromiseBuffer.add
  split <;> rfl

theorem dollar_drain (b : IsolatedPromiseBuffer) (timeout : Option Int) (t0 : Int) :
    (b.drain timeout t0).1.dollar = b.dollar := rfl

theorem dollar_applyOp (b : IsolatedPromiseBuffer) (op : BufferOp) :
    (applyOp b op).dollar = b.dollar := by
  cases op with
  | add p => exact dollar_add b p
  | drain timeout t0 => exact dollar_drain b timeout t0

theorem dollar_applyOps (ops : List BufferOp) :
    ∀ b : IsolatedPromiseBuffer, (applyOps b ops).dollar = b.dollar := by
  induction ops with
  | nil => intro b; rfl
  | cons op rest ih =>
    intro b
    calc (applyOps b (op :: rest)).dollar
        = (applyOps (applyOp b op) rest).dollar := rfl
      _ = (applyOp b op).dollar := ih (applyOp b op)
      _ = b.dollar := dollar_applyOp b op

/-! Claim theorems. -/

/-- C2: for every buffer with fixed capacity (30 when no capacity is given
at construction), if the pending producer list already holds at least
capacity-many entries, `add` returns a rejected future carrying the
buffer-full error and the state is unchanged (same pending list, producer
not appended). -/
theorem add_at_capacity_rejects (b : IsolatedPromiseBuffer) (p : Producer)
    (h : b._taskProducers.length ≥ b._bufferSize) :
    b.add p = (b, PromiseOutcome.rejected bufferFullError) ∧
    IsolatedPromiseBuffer.newDefault._bufferSize = 30 := by
  constructor
  · simp [IsolatedPromiseBuffer.add, h]
  · rfl

/-- Witness for C2: a concrete buffer of capacity 2 holding 2 producers
rejects a third `add` and is left unchanged. -/
theorem add_at_capacity_rejects_witness :
    (IsolatedPromiseBuffer.mk []
        [Producer.mk 1 PromiseOutcome.fulfilled, Producer.mk 2 PromiseOutcome.fulfilled]
        2).add (Producer.mk 3 PromiseOutcome.fulfilled) =
      (IsolatedPromiseBuffer.mk []
        [Producer.mk 1 PromiseOutcome.fulfilled, Producer.mk 2 PromiseOutcome.fulfilled] 2,
       PromiseOutcome.rejected bufferFullError) ∧
    IsolatedPromiseBuffer.newDefault._bufferSize = 30 :=
  add_at_capacity_rejects
    (IsolatedPromiseBuffer.mk []
      [Producer.mk 1 PromiseOutcome.fulfilled, Producer.mk 2 PromiseOutcome.fulfilled] 2)
    (Producer.mk 3 PromiseOutcome.fulfilled)
    (by decide)

/-- C8: for every buffer below capacity, `add` appends the producer at the
end of the pending list and resolves immediately, without invoking the
producer: the producer is stored unevaluated, and only a later `drain`
invokes it (its invocation appears in that drain's invoked futures). -/
theorem add_below_capacity_appends (b : IsolatedPromiseBuffer) (p : Producer) (t0 : Int)
    (h : b._taskProducers.length < b._bufferSize) :
    b.add p = ({ b with _taskProducers := b._taskProducers ++ [p] },
      PromiseOutcome.fulfilled) ∧
    ((b.add p).1.drain none t0).2.1 = (b._taskProducers ++ [p]).map (fun q => q.invoke t0) := by
  have h1 := add_of_lt b p h
  refine ⟨h1, ?_⟩
  rw [h1]
  rfl

/-- Witness for C8: adding to a concrete one-slot-free buffer appends and
resolves, and a later drain invokes the stored producer. -/
theorem add_below_capacity_appends_witness :
    (IsolatedPromiseBuffer.mk [] [Producer.mk 1 PromiseOutcome.fulfilled] 2).add
        (Producer.mk 5 PromiseOutcome.fulfilled) =
      (IsolatedPromiseBuffer.mk []
        [Producer.mk 1 PromiseOutcome.fulfilled, Producer.mk 5 PromiseOutcome.fulfilled] 2,
       PromiseOutcome.fulfilled) ∧
    (((IsolatedPromiseBuffer.mk [] [Producer.mk 1 PromiseOutcome.fulfilled] 2).add
        (Producer.mk 5 PromiseOutcome.fulfilled)).1.drain none 0).2.1 =
      ([Producer.mk 1 PromiseOutcome.fulfilled, Producer.mk 5 PromiseOutcome.fulfilled]).map
        (fun q => q.invoke 0) :=
  add_below_capacity_appends
    (IsolatedPromiseBuffer.mk [] [Producer.mk 1 PromiseOutcome.fulfilled] 2)
    (Producer.mk 5 PromiseOutcome.fulfilled) 0 (by decide)

/-- C4: for every buffer, `drain` synchronously detaches the entire pending
list and replaces it with a fresh empty one: after `drain` the pending list
is empty, up to capacity-many subsequent `add` calls all succeed
independently of the unresolved drain, and the drain invokes exactly the
producers that were pending when it was called. -/
theorem drain_detaches_and_new_adds_succeed (b : IsolatedPromiseBuffer)
    (timeout : Option Int) (t0 : Int) (ps : List Producer)
    (h : ps.length ≤ b._bufferSize) :
    (b.drain timeout t0).1._taskProducers = [] ∧
    (b.drain timeout t0).2.1 = b._taskProducers.map (fun p => p.invoke t0) ∧
    (addAll (b.drain timeout t0).1 ps).2 = ps.map (fun _ => PromiseOutcome.fulfilled) ∧
    (addAll (b.drain timeout t0).1 ps).1._taskProducers = ps := by
  have hall := addAll_ok ps { b with _taskProducers := ([] : List Producer) }
    (by simpa using h)
  exact ⟨rfl, rfl, by rw [show (b.drain timeout t0).1 =
      { b with _taskProducers := ([] : List Producer) } from rfl, hall],
    by rw [show (b.drain timeout t0).1 =
      { b with _taskProducers := ([] : List Producer) } from rfl, hall]; simp⟩

/-- Witness for C4: draining a concrete full buffer of capacity 2 leaves it
empty, and two further adds succeed while the drain is in flight. -/
theorem drain_detaches_and_new_adds_succeed_witness :
    ((IsolatedPromiseBuffer.mk []
        [Producer.mk 9 PromiseOutcome.fulfilled, Producer.mk 7 PromiseOutcome.fulfilled]
        2).drain none 0).1._taskProducers = [] ∧
    ((IsolatedPromiseBuffer.mk []
        [Producer.mk 9 PromiseOutcome.fulfilled, Producer.mk 7 PromiseOutcome.fulfilled]
        2).drain none 0).2.1 =
      ([Producer.mk 9 PromiseOutcome.fulfilled, Producer.mk 7 PromiseOutcome.fulfilled]).map
        (fun p => p.invoke 0) ∧
    (addAll ((IsolatedPromiseBuffer.mk []
        [Producer.mk 9 PromiseOutcome.fulfilled, Producer.mk 7 PromiseOutcome.fulfilled]
        2).drain none 0).1
      [Producer.mk 3 PromiseOutcome.fulfilled, Producer.mk 4 PromiseOutcome.fulfilled]).2 =
      ([Producer.mk 3 PromiseOutcome.fulfilled, Producer.mk 4 PromiseOutcome.fulfilled]).map
        (fun _ => PromiseOutcome.fulfilled) ∧
    (addAll ((IsolatedPromiseBuffer.mk []
        [Producer.mk 9 PromiseOutcome.fulfilled, Producer.mk 7 PromiseOutcome.fulfilled]
        2).drain none 0).1
      [Producer.mk 3 PromiseOutcome.fulfilled, Producer.mk 4 PromiseOutcome.fulfilled]).1._taskProducers =
      [Producer.mk 3 PromiseOutcome.fulfilled, Producer.mk 4 PromiseOutcome.fulfilled] :=
  drain_detaches_and_new_adds_succeed
    (IsolatedPromiseBuffer.mk []
      [Producer.mk 9 PromiseOutcome.fulfilled, Producer.mk 7 PromiseOutcome.fulfilled] 2)
    none 0
    [Producer.mk 3 PromiseOutcome.fulfilled, Producer.mk 4 PromiseOutcome.fulfilled]
    (by decide)

/-- C10: for every buffer instance and every sequence of add and drain
operations, the public array field stays empty for the whole lifetime: it is
the empty array at construction (explicit or default size) and no operation
ever changes it. -/
theorem dollar_always_empty (n : Nat) (b : IsolatedPromiseBuffer) (ops : List BufferOp) :
    (IsolatedPromiseBuffer.new n).dollar = [] ∧
    (applyOps b ops).dollar = b.dollar ∧
    (applyOps (IsolatedPromiseBuffer.new n) ops).dollar = [] ∧
    (applyOps IsolatedPromiseBuffer.newDefault ops).dollar = [] := by
  refine ⟨rfl, dollar_applyOps ops b, ?_, ?_⟩
  · rw [dollar_applyOps]
    rfl
  · rw [dollar_applyOps]
    rfl

/-- C3: for every buffer and every set of detached producers, each of whose
futures settles with success or failure, the future returned by `drain`
never rejects: with no timeout it resolves to `true` once every detached
producer has settled (at the latest settle time), regardless of how many of
them failed, and with any timeout it still settles (never hangs or
rejects). -/
theorem drain_resolves_true_swallowing_failures (b : IsolatedPromiseBuffer)
    (timeout : Option Int) (t0 : Int) :
    (b.drain none t0).2.2 = some (maxSettleTime (b.drain none t0).2.1, true) ∧
    ((b.drain timeout t0).2.2).isSome = true := by
  constructor
  · have hd : (b.drain none t0).2.2 =
        drainPromiseOutcome none t0 ((b.drain none t0).2.1) := rfl
    rw [hd, drainPromiseOutcome_eq]
    rfl
  · have hd : (b.drain timeout t0).2.2 =
        drainPromiseOutcome timeout t0 ((b.drain timeout t0).2.1) := rfl
    rw [hd, drainPromiseOutcome_eq]
    cases timerResolveFalse timeout t0 with
    | none => rfl
    | some tf =>
      dsimp only
      split <;> rfl

/-- C5: for every buffer, a `drain` with the timeout absent, zero or
non-positive never resolves to `false`: its promise resolves to `true`
exactly when all detached producers have settled, at the latest settle
time. -/
theorem drain_nonpositive_timeout_never_false (b : IsolatedPromiseBuffer)
    (timeout : Option Int) (t0 : Int)
    (h : timeout = none ∨ ∃ t, timeout = some t ∧ t ≤ 0) :
    (b.drain timeout t0).2.2 = some (maxSettleTime (b.drain timeout t0).2.1, true) := by
  have htf : timerResolveFalse timeout t0 = none := by
    rcases h with h | ⟨t, ht, hle⟩
    · rw [h]
      rfl
    · rw [ht]
      show (if 0 < t then some (t0 + t) else none) = none
      rw [if_neg (by omega)]
  have hd : (b.drain timeout t0).2.2 =
      drainPromiseOutcome timeout t0 ((b.drain timeout t0).2.1) := rfl
  rw [hd, drainPromiseOutcome_eq, htf]

/-- Witness for C5: a concrete buffer drained with timeout 0 resolves to
`true` at the settle time of its (failing) producer, not to `false`. -/
theorem drain_nonpositive_timeout_never_false_witness :
    ((IsolatedPromiseBuffer.mk []
        [Producer.mk 5 (PromiseOutcome.rejected bufferFullError)] 30).drain
      (some 0) 0).2.2 =
    some (maxSettleTime (((IsolatedPromiseBuffer.mk []
        [Producer.mk 5 (PromiseOutcome.rejected bufferFullError)] 30).drain
      (some 0) 0).2.1), true) :=
  drain_nonpositive_timeout_never_false
    (IsolatedPromiseBuffer.mk []
      [Producer.mk 5 (PromiseOutcome.rejected bufferFullError)] 30)
    (some 0) 0 (Or.inr ⟨0, rfl, by decide⟩)

/-- C6: for every buffer, a `drain` called at time `t0` with a positive
timeout resolves to `false` when the timeout elapses (at absolute time
`t0 + timeout`) whenever at least one detached producer's future has not
settled by then; the producers' futures are not cancelled — each still
settles at its own start time plus duration afterwards. -/
theorem drain_positive_timeout_resolves_false (b : IsolatedPromiseBuffer)
    (t : Int) (t0 : Int) (hpos : 0 < t)
    (hslow : ∃ f ∈ (b.drain (some t) t0).2.1, t0 + t < f.settleTime) :
    (b.drain (some t) t0).2.2 = some (t0 + t, false) ∧
    (b.drain (some t) t0).2.1.map FutureBehavior.settleTime =
      b._taskProducers.map (fun p => t0 + p.duration) := by
  obtain ⟨f, hmem, hlt⟩ := hslow
  have hmax : t0 + t < maxSettleTime ((b.drain (some t) t0).2.1) :=
    lt_of_lt_of_le hlt (settleTime_le_maxSettleTime _ f hmem)
  constructor
  · have hd : (b.drain (some t) t0).2.2 =
        drainPromiseOutcome (some t) t0 ((b.drain (some t) t0).2.1) := rfl
    have htf : timerResolveFalse (some t) t0 = some (t0 + t) := by
      show (if 0 < t then some (t0 + t) else none) = some (t0 + t)
      rw [if_pos hpos]
    rw [hd, drainPromiseOutcome_eq, htf]
    dsimp only
    rw [if_pos hmax]
  · have h1 : (b.drain (some t) t0).2.1 =
        b._taskProducers.map (fun p => p.invoke t0) := rfl
    rw [h1, List.map_map]
    rfl

/-- Witness for C6: a drain at time 100 with timeout 50 over a producer of
duration 100 (settling at 200, after the timer fires at 150) resolves
`false` at 150, while the producer's future still settles at 200. -/
theorem drain_positive_timeout_resolves_false_witness :
    ((IsolatedPromiseBuffer.mk [] [Producer.mk 100 PromiseOutcome.fulfilled] 30).drain
      (some 50) 100).2.2 = some (150, false) ∧
    ((IsolatedPromiseBuffer.mk [] [Producer.mk 100 PromiseOutcome.fulfilled] 30).drain
      (some 50) 100).2.1.map FutureBehavior.settleTime =
      ([Producer.mk 100 PromiseOutcome.fulfilled]).map (fun p => (100 : Int) + p.duration) :=
  drain_positive_timeout_resolves_false
    (IsolatedPromiseBuffer.mk [] [Producer.mk 100 PromiseOutcome.fulfilled] 30)
    50 100 (by decide)
    ⟨FutureBehavior.mk 200 PromiseOutcome.fulfilled, by decide⟩

/-- C9: for every buffer filled by successive `add` calls, `drain` invokes
the detached producers in exactly the order they were added (FIFO), all
started at the drain time: each invoked future settles at the drain time
plus its own duration, so no invocation waits for a prior producer's
completion. -/
theorem drain_invokes_fifo_concurrently (C : Nat) (ps : List Producer)
    (timeout : Option Int) (t0 : Int) (h : ps.length ≤ C) :
    ((addAll (IsolatedPromiseBuffer.new C) ps).1.drain timeout t0).2.1 =
      ps.map (fun p => p.invoke t0) ∧
    ((addAll (IsolatedPromiseBuffer.new C) ps).1.drain timeout t0).2.1.map
        FutureBehavior.settleTime = ps.map (fun p => t0 + p.duration) := by
  have hall := addAll_ok ps (IsolatedPromiseBuffer.new C) (by simpa [IsolatedPromiseBuffer.new] using h)
  have hb : (addAll (IsolatedPromiseBuffer.new C) ps).1._taskProducers = ps := by
    rw [hall]
    rfl
  have h1 : ((addAll (IsolatedPromiseBuffer.new C) ps).1.drain timeout t0).2.1 =
      (addAll (IsolatedPromiseBuffer.new C) ps).1._taskProducers.map
        (fun p => p.invoke t0) := rfl
  constructor
  · rw [h1, hb]
  · rw [h1, hb, List.map_map]
    rfl

/-- Witness for C9: two producers added in order are invoked in that order
at drain time 0, settling at their own durations 20 and 10. -/
theorem drain_invokes_fifo_concurrently_witness :
    ((addAll (IsolatedPromiseBuffer.new 2)
        [Producer.mk 20 PromiseOutcome.fulfilled, Producer.mk 10 PromiseOutcome.fulfilled]).1.drain
      none 0).2.1 =
      ([Producer.mk 20 PromiseOutcome.fulfilled, Producer.mk 10 PromiseOutcome.fulfilled]).map
        (fun p => p.invoke 0) ∧
    ((addAll (IsolatedPromiseBuffer.new 2)
        [Producer.mk 20 PromiseOutcome.fulfilled, Producer.mk 10 PromiseOutcome.fulfilled]).1.drain
      none 0).2.1.map FutureBehavior.settleTime =
      ([Producer.mk 20 PromiseOutcome.fulfilled, Producer.mk 10 PromiseOutcome.fulfilled]).map
        (fun p => (0 : Int) + p.duration) :=
  drain_invokes_fifo_concurrently 2
    [Producer.mk 20 PromiseOutcome.fulfilled, Producer.mk 10 PromiseOutcome.fulfilled]
    none 0 (by decide)

/-- A concrete configuration for the C1 counterexample: two fixed headers,
an overlay carrying its own method and a one-entry headers map. -/
def exampleOptions : EdgeTransportOptions :=
  EdgeTransportOptions.mk "https://sentry.example/envelope"
    (some [("a", "1"), ("b", "2")])
    (FetchOptions.mk none (some "GET") none (some [("a", "3")]))
    none

/-- A concrete request for the C1 counterexample. -/
def exampleRequest : TransportRequest :=
  TransportRequest.mk "payload"

/-- Counterexample to C1: with fixed headers a=1, b=2 and an overlay whose
headers map is a=3 and whose method is GET, the built request uses method
GET (not the claimed POST) and its headers are the overlay's map wholesale —
the fixed entry b=2 is dropped, not merged in as the claim states. -/
theorem makeRequest_headers_not_merged_cex :
    (makeRequestOptions exampleOptions exampleRequest).method = "GET" ∧
    (claimedRequestOptions exampleOptions exampleRequest).method = "POST" ∧
    headerLookup (makeRequestOptions exampleOptions exampleRequest).headers "b" = none ∧
    headerLookup (claimedRequestOptions exampleOptions exampleRequest).headers "b" =
      some "2" ∧
    makeRequestOptions exampleOptions exampleRequest ≠
      claimedRequestOptions exampleOptions exampleRequest := by
  exact ⟨rfl, rfl, rfl, rfl, by decide⟩

/-- C1 as amended: the outbound request options are the base object (body
verbatim, method POST, referrerPolicy origin, headers the fixed map) with
the overlay spread over it field by field: a field present in the overlay
replaces the base field wholesale — in particular an overlay headers map
replaces the fixed headers entirely rather than merging per entry — and each
base value (POST, origin, the verbatim body, the fixed headers) is used
exactly when the overlay does not carry that field. -/
theorem makeRequest_options_spread (options : EdgeTransportOptions)
    (request : TransportRequest) :
    (makeRequestOptions options request).method = options.fetchOptions.method.getD "POST" ∧
    (makeRequestOptions options request).referrerPolicy =
      options.fetchOptions.referrerPolicy.getD "origin" ∧
    (makeRequestOptions options request).body = options.fetchOptions.body.getD request.body ∧
    (makeRequestOptions options request).headers =
      (match options.fetchOptions.headers with
       | some f => some f
       | none => options.headers) := by
  exact ⟨rfl, rfl, rfl, rfl⟩

/-- C7: for every HTTP response, the produced `SendResult` carries the
numeric status code and a headers mapping with exactly the two keys
x-sentry-rate-limits and retry-after, bound to the response's
X-Sentry-Rate-Limits and Retry-After header values, `none` standing for the
null used when a header is absent; no other response header appears. -/
theorem sendResult_mapping (response : HttpResponse) :
    (responseToSendResult response).statusCode = response.status ∧
    (responseToSendResult response).headers.map Prod.fst =
      ["x-sentry-rate-limits", "retry-after"] ∧
    List.lookup "x-sentry-rate-limits" (responseToSendResult response).headers =
      some (headersGet response.headers "X-Sentry-Rate-Limits") ∧
    List.lookup "retry-after" (responseToSendResult response).headers =
      some (headersGet response.headers "Retry-After") := by
  exact ⟨rfl, rfl, rfl, rfl⟩

end SentryEdge
